import Mathlib

/-!
Verification development for the saramaprom exporter (`exporter.go`), a bridge
from a go-metrics registry to the Prometheus client library.  Go strings are
modelled as lists of characters, Go maps as association lists, Go map values
(which are references) as natural-number references into an explicit heap, and
float64 values as rationals.  The external Prometheus registry is modelled by
an environment function giving the outcome of each `Register` call, together
with a log of the registration calls the exporter makes.
-/

/-- Go strings, modelled as lists of characters. -/
abbrev Str := List Char

/-- Convenience conversion from Lean string literals. -/
def str (s : String) : Str := s.data

/-- Association-list lookup, modelling Go map access `m[k]`. -/
def assocGet {α β : Type} [DecidableEq α] : List (α × β) → α → Option β
  | [], _ => none
  | (k, v) :: rest, a => if k = a then some v else assocGet rest a

/-- Association-list insert-or-update, modelling Go map assignment `m[k] = v`. -/
def assocSet {α β : Type} [DecidableEq α] (m : List (α × β)) (k : α) (v : β) :
    List (α × β) :=
  match m with
  | [] => [(k, v)]
  | (k', v') :: rest => if k' = k then (k, v) :: rest else (k', v') :: assocSet rest k v

theorem assocGet_assocSet_self {α β : Type} [DecidableEq α]
    (m : List (α × β)) (k : α) (v : β) : assocGet (assocSet m k v) k = some v := by
  induction m with
  | nil => simp [assocGet, assocSet]
  | cons hd tl ih =>
    obtain ⟨k', v'⟩ := hd
    by_cases h : k' = k
    · simp [assocGet, assocSet, h]
    · simp [assocGet, assocSet, h, ih]

theorem assocGet_assocSet_ne {α β : Type} [DecidableEq α]
    (m : List (α × β)) (k k' : α) (v : β) (h : k' ≠ k) :
    assocGet (assocSet m k v) k' = assocGet m k' := by
  induction m with
  | nil => simp [assocGet, assocSet, Ne.symm h]
  | cons hd tl ih =>
    obtain ⟨a, b⟩ := hd
    by_cases ha : a = k
    · subst ha
      simp [assocGet, assocSet, Ne.symm h]
    · simp only [assocSet, if_neg ha, assocGet]
      by_cases hb : a = k'
      · simp [hb]
      · simp [hb, ih]

/-- Character test from `exporter.sanitizeName`:
`(c >= 'a' && c <= 'z') || (c >= 'A' && c <= 'Z') || c == '_' || c == ':' || (c >= '0' && c <= '9')`. -/
def allowedChar (c : Char) : Bool :=
  (decide ('a' ≤ c) && decide (c ≤ 'z')) ||
  (decide ('A' ≤ c) && decide (c ≤ 'Z')) ||
  (c == '_') || (c == ':') ||
  (decide ('0' ≤ c) && decide (c ≤ '9'))

/-- One step of the byte-rewriting loop in `exporter.sanitizeName`. -/
def sanitizeChar (c : Char) : Char := if allowedChar c then c else '_'

/-- Model of `exporter.sanitizeName`: the Go code copies the string into a byte
slice and overwrites every disallowed byte with `'_'` in place, which is
exactly a character-wise map. -/
def sanitizeName (key : Str) : Str := key.map sanitizeChar

theorem sanitizeChar_idem (c : Char) : sanitizeChar (sanitizeChar c) = sanitizeChar c := by
  by_cases h : allowedChar c
  · simp [sanitizeChar, h]
  · simp [sanitizeChar, h]

theorem allowedChar_sanitizeChar (c : Char) : allowedChar (sanitizeChar c) = true := by
  by_cases h : allowedChar c
  · simp [sanitizeChar, h]
  · simp only [sanitizeChar, h, if_false, Bool.false_eq_true]
    decide

/-- Boolean test that `m` is a leading segment of `s`, used to model the scan
inside `strings.Index`. -/
def hasPfx : Str → Str → Bool
  | [], _ => true
  | _ :: _, [] => false
  | a :: as, b :: bs => if a = b then hasPfx as bs else false

theorem hasPfx_iff (m : Str) : ∀ s : Str, hasPfx m s = true ↔ ∃ t, s = m ++ t := by
  induction m with
  | nil => intro s; simp [hasPfx]
  | cons a as ih =>
    intro s
    cases s with
    | nil =>
      simp [hasPfx]
    | cons b bs =>
      simp only [hasPfx]
      by_cases hab : a = b
      · subst hab
        rw [if_pos rfl, ih bs]
        simp
      · rw [if_neg hab]
        constructor
        · intro h; exact Bool.noConfusion h
        · rintro ⟨t, ht⟩
          have ht' : b :: bs = a :: (as ++ t) := by simpa using ht
          obtain ⟨hba, -⟩ := List.cons.inj ht'
          exact absurd hba.symm hab

/-- Model of `strings.Index(s, m)` together with the two slicings
`s[:i]` and `s[i+len(m):]` that `parseMetricName` performs: returns the text
before the first occurrence of `m` and the text after it, or `none` when `m`
does not occur in `s`. -/
def splitOnFirst (m : Str) : Str → Option (Str × Str)
  | [] => if hasPfx m [] then some ([], List.drop m.length []) else none
  | c :: rest =>
    if hasPfx m (c :: rest) then some ([], List.drop m.length (c :: rest))
    else (splitOnFirst m rest).map fun p => (c :: p.1, p.2)

/-- The marker `m` occurs as a contiguous substring of `s`. -/
def occursIn (m s : Str) : Prop := ∃ p q, s = p ++ m ++ q

theorem splitOnFirst_sound (m : Str) :
    ∀ (s a b : Str), splitOnFirst m s = some (a, b) → s = a ++ m ++ b := by
  intro s
  induction s with
  | nil =>
    intro a b h
    simp only [splitOnFirst] at h
    by_cases hp : hasPfx m [] = true
    · obtain ⟨t, ht⟩ := (hasPfx_iff m []).mp hp
      obtain ⟨hm, -⟩ := List.append_eq_nil.mp ht.symm
      rw [if_pos hp] at h
      obtain ⟨rfl, rfl⟩ : ([] : Str) = a ∧ List.drop m.length [] = b := by
        constructor <;> [exact congrArg (·.1) (Option.some.inj h) ;
          exact congrArg (·.2) (Option.some.inj h)]
      simp [hm]
    · rw [if_neg hp] at h; cases h
  | cons c rest ih =>
    intro a b h
    simp only [splitOnFirst] at h
    by_cases hp : hasPfx m (c :: rest) = true
    · obtain ⟨t, ht⟩ := (hasPfx_iff m (c :: rest)).mp hp
      rw [if_pos hp] at h
      obtain ⟨rfl, rfl⟩ : ([] : Str) = a ∧ List.drop m.length (c :: rest) = b := by
        constructor <;> [exact congrArg (·.1) (Option.some.inj h) ;
          exact congrArg (·.2) (Option.some.inj h)]
      rw [ht, List.nil_append, List.drop_left]
    · rw [if_neg hp] at h
      obtain ⟨⟨a', b'⟩, hrec, heq⟩ := Option.map_eq_some'.mp h
      obtain ⟨rfl, rfl⟩ : c :: a' = a ∧ b' = b := by
        constructor <;> [exact congrArg (·.1) heq ; exact congrArg (·.2) heq]
      have := ih a' b' hrec
      simp [this]

theorem splitOnFirst_min (m : Str) :
    ∀ (s a b : Str), splitOnFirst m s = some (a, b) →
      ∀ p q, s = p ++ m ++ q → a.length ≤ p.length := by
  intro s
  induction s with
  | nil =>
    intro a b h p q hpq
    simp only [splitOnFirst] at h
    by_cases hp : hasPfx m [] = true
    · rw [if_pos hp] at h
      have : ([] : Str) = a := congrArg (·.1) (Option.some.inj h)
      simp [← this]
    · rw [if_neg hp] at h; cases h
  | cons c rest ih =>
    intro a b h p q hpq
    simp only [splitOnFirst] at h
    by_cases hp : hasPfx m (c :: rest) = true
    · rw [if_pos hp] at h
      have : ([] : Str) = a := congrArg (·.1) (Option.some.inj h)
      simp [← this]
    · rw [if_neg hp] at h
      obtain ⟨⟨a', b'⟩, hrec, heq⟩ := Option.map_eq_some'.mp h
      have ha : c :: a' = a := congrArg (·.1) heq
      cases p with
      | nil =>
        exfalso
        apply hp
        exact (hasPfx_iff m (c :: rest)).mpr ⟨q, by simpa using hpq⟩
      | cons d p' =>
        have hcd : c = d ∧ rest = p' ++ m ++ q := by
          constructor
          · exact (List.cons.injEq _ _ _ _ ▸ congrArg id (by simpa using hpq)).1
          · exact (List.cons.injEq _ _ _ _ ▸ congrArg id (by simpa using hpq)).2
        have := ih a' b' hrec p' q hcd.2
        rw [← ha]
        simpa using Nat.succ_le_succ this

theorem splitOnFirst_isSome (m : Str) :
    ∀ s : Str, (splitOnFirst m s).isSome = true ↔ occursIn m s := by
  intro s
  constructor
  · intro h
    match hs : splitOnFirst m s with
    | none => rw [hs] at h; cases h
    | some (a, b) => exact ⟨a, b, splitOnFirst_sound m s a b hs⟩
  · intro hocc
    induction s with
    | nil =>
      obtain ⟨p, q, hpq⟩ := hocc
      obtain ⟨hpm, hq⟩ := List.append_eq_nil.mp hpq.symm
      obtain ⟨hp, hm⟩ := List.append_eq_nil.mp hpm
      have : hasPfx m [] = true := (hasPfx_iff m []).mpr ⟨[], by simp [hm]⟩
      simp [splitOnFirst, this]
    | cons c rest ih =>
      by_cases hp : hasPfx m (c :: rest) = true
      · simp [splitOnFirst, hp]
      · obtain ⟨p, q, hpq⟩ := hocc
        cases p with
        | nil =>
          exact absurd ((hasPfx_iff m (c :: rest)).mpr ⟨q, by simpa using hpq⟩) hp
        | cons d p' =>
          have hrest : rest = p' ++ m ++ q :=
            (List.cons.injEq _ _ _ _ ▸ congrArg id (by simpa using hpq)).2
          have := ih ⟨p', q, hrest⟩
          simp only [splitOnFirst, if_neg hp]
          simpa using this

instance occursIn_decidable (m s : Str) : Decidable (occursIn m s) :=
  decidable_of_iff ((splitOnFirst m s).isSome = true) (splitOnFirst_isSome m s)

theorem not_occursIn_splitOnFirst_eq_none {m s : Str} (h : ¬ occursIn m s) :
    splitOnFirst m s = none := by
  match hs : splitOnFirst m s with
  | none => rfl
  | some (a, b) => exact absurd ⟨a, b, splitOnFirst_sound m s a b hs⟩ h

/-- The literal marker `"-for-broker-"` from `parseMetricName`. -/
def brokerMarker : Str := str "-for-broker-"

/-- The literal marker `"-for-topic-"` from `parseMetricName`. -/
def topicMarker : Str := str "-for-topic-"

/-- Model of `parseMetricName`: scan for `-for-broker-` first, then for
`-for-topic-`; slice around the first occurrence of whichever marker is found,
else return the name unchanged.  Returns `(newName, broker, topic)`. -/
def parseMetricName (name : Str) : Str × Str × Str :=
  match splitOnFirst brokerMarker name with
  | some (a, b) => (a, b, [])
  | none =>
    match splitOnFirst topicMarker name with
    | some (a, b) => (a, [], b)
    | none => (name, [], [])

/-- Outcome-relevant description of a `prometheus.GaugeVec` as built at
`prometheus.NewGaugeVec(prometheus.GaugeOpts{...}, labelNames)` in
`gaugeFromNameAndValue`. -/
structure GaugeVecDesc where
  ns : Str
  sub : Str
  name : Str
  help : Str
  labelNames : List Str
deriving DecidableEq

/-- A bound gauge handle, the result of `g.With(labels)`: the vector it came
from, the label values extracted from the label map at bind time, and the
current gauge value (`Set`). -/
structure GaugeHandle where
  vec : GaugeVecDesc
  labelVals : List (Str × Str)
  value : ℚ
deriving DecidableEq

/-- A `prometheus.NewConstHistogram` observation together with the fields of
the `prometheus.NewDesc` it is built on in `histogramFromNameAndMetric`. -/
structure ConstHist where
  fqName : Str
  help : Str
  constLabels : List (Str × Str)
  count : Nat
  sum : ℚ
  buckets : List (ℚ × Nat)
deriving DecidableEq

/-- A collector held by the external Prometheus registry: either a
`*prometheus.GaugeVec` or a collector of some other concrete kind (the case
the type assertion at line 81 of exporter.go rejects). -/
inductive PromCollector : Type
  | gaugeVec (d : GaugeVecDesc)
  | otherCol (tag : Nat)
deriving DecidableEq

/-- Errors surfaced by the exporter.  `typeMismatch` is the
"already registered but it's not *prometheus.GaugeVec" error,
`unexpectedMetricType` the "unexpected metric type" error, and `envErr` stands
for any other error value handed back by the external registry. -/
inductive GoErr : Type
  | typeMismatch
  | unexpectedMetricType
  | envErr (code : Nat)
deriving DecidableEq

/-- Outcome of a `promRegistry.Register` call, per the Prometheus interface:
success, `prometheus.AlreadyRegisteredError` carrying the existing collector,
or any other failure. -/
inductive RegResult : Type
  | ok
  | alreadyRegistered (existing : PromCollector)
  | failed (e : GoErr)
deriving DecidableEq

/-- The behaviour of the external Prometheus registry's `Register` call for
gauge vectors: what it answers for each registration request. -/
def Env : Type := GaugeVecDesc → RegResult

/-- The configuration fields of `Options` used by the exporter.  `labelsRef`
is the reference to the configured base label map `opt.Labels`; Go maps are
reference values, which the model makes explicit via a heap. -/
structure Options where
  ns : Str
  sub : Str
  labelsRef : Nat
deriving DecidableEq

/-- The mutable state of an `exporter` value, plus the observable interaction
with the external Prometheus registry.  `heap` holds the label maps (Go map
values are references); `regLog` records every `Register` call made for a
gauge vector; `collRegLog` counts the `MustRegister` calls made for custom
collectors; `collHeap` holds each `customCollector`'s `metric` field (`none`
until first populated).  The `Debug` option only prints and is omitted. -/
structure ExpState where
  opt : Options
  heap : List (Nat × List (Str × Str))
  gauges : List (Str × GaugeHandle)
  labelsMap : List (Str × Nat)
  metricsNameMap : List Str
  customMetrics : List (Str × Nat)
  collHeap : List (Nat × Option ConstHist)
  collRegLog : Nat
  nextColl : Nat
  regLog : List GaugeVecDesc
  histogramBuckets : List ℚ
  timerBuckets : List ℚ
deriving DecidableEq

/-- Dereference a label-map reference (a missing cell reads as empty). -/
def heapGet (h : List (Nat × List (Str × Str))) (r : Nat) : List (Str × Str) :=
  (assocGet h r).getD []

/-- Model of `exporter.createKey`: `opt.Namespace + "_" + opt.Subsystem + "_" + name`. -/
def createKey (o : Options) (name : Str) : Str :=
  o.ns ++ str "_" ++ o.sub ++ str "_" ++ name

/-- The in-place mutation of the shared label map performed on a label-cache
miss: `labels = c.opt.Labels; labels["broker"] = broker; labels["topic"] = topic`
(each insertion only when the dimension is nonempty).  Because `labels` is the
configured map itself, the write happens at heap cell `opt.labelsRef`. -/
def mnalHeap (st : ExpState) (metricName : Str) : List (Nat × List (Str × Str)) :=
  let broker := (parseMetricName metricName).2.1
  let topic := (parseMetricName metricName).2.2
  let r := st.opt.labelsRef
  let h1 := if broker ≠ [] then
      assocSet st.heap r (assocSet (heapGet st.heap r) (str "broker") broker)
    else st.heap
  if topic ≠ [] then assocSet h1 r (assocSet (heapGet h1 r) (str "topic") topic)
  else h1

/-- Model of `exporter.metricNameAndLabels`.  Returns
`((newName, labelsRef, skip), newState)`: when no broker and no topic is
parsed it sets `skip` (with a nil labels reference, modelled as `0`); on a
label-cache hit it returns the cached reference; on a miss it takes the
configured map `opt.Labels` itself (a reference!), inserts the parsed
dimension into that shared map, and caches the reference under the raw
name. -/
def metricNameAndLabels (st : ExpState) (metricName : Str) :
    (Str × Nat × Bool) × ExpState :=
  let newName := (parseMetricName metricName).1
  let broker := (parseMetricName metricName).2.1
  let topic := (parseMetricName metricName).2.2
  if broker = [] ∧ topic = [] then ((newName, 0, true), st)
  else
    match assocGet st.labelsMap metricName with
    | some r => ((newName, r, false), st)
    | none =>
      ((newName, st.opt.labelsRef, false),
       { st with heap := mnalHeap st metricName,
                 labelsMap := assocSet st.labelsMap metricName st.opt.labelsRef })

/-- Model of `exporter.gaugeFromNameAndValue`.  Mirrors the Go control flow:
resolve labels (skip → success no-op); if no handle is cached for the raw
name, compute the label-name list, check-and-insert the sanitized short name
in `metricsNameMap` (hit → success no-op), build the gauge vector, call
`Register` (recovering from `AlreadyRegisteredError` when the existing
collector is a gauge vector), bind the handle with `With(labels)`; finally
`Set(val)` on the handle. -/
def gaugeFromNameAndValue (env : Env) (st0 : ExpState) (name : Str) (val : ℚ) :
    Option GoErr × ExpState :=
  let res := metricNameAndLabels st0 name
  let shortName := res.1.1
  let lref := res.1.2.1
  let skip := res.1.2.2
  let st := res.2
  if skip then (none, st)
  else
    match assocGet st.gauges name with
    | some g =>
      let h : GaugeHandle := { g with value := val }
      (none, { st with gauges := assocSet st.gauges name h })
    | none =>
        let labelVals := heapGet st.heap lref
        let labelNames := labelVals.map Prod.fst
        let metricName := sanitizeName shortName
        if metricName ∈ st.metricsNameMap then (none, st)
        else
          let st1 := { st with metricsNameMap := metricName :: st.metricsNameMap }
          let g : GaugeVecDesc :=
            { ns := sanitizeName st1.opt.ns, sub := sanitizeName st1.opt.sub,
              name := sanitizeName shortName, help := shortName,
              labelNames := labelNames }
          let st2 := { st1 with regLog := st1.regLog ++ [g] }
          match env g with
          | RegResult.ok =>
            let h : GaugeHandle := { vec := g, labelVals := labelVals, value := val }
            (none, { st2 with gauges := assocSet st2.gauges name h })
          | RegResult.alreadyRegistered (PromCollector.gaugeVec d) =>
            let h : GaugeHandle := { vec := d, labelVals := labelVals, value := val }
            (none, { st2 with gauges := assocSet st2.gauges name h })
          | RegResult.alreadyRegistered (PromCollector.otherCol _) =>
            (some GoErr.typeMismatch, st2)
          | RegResult.failed e => (some e, st2)

/-- Read-only snapshot data of a go-metrics Histogram or Timer, an external
collaborator consumed through `Snapshot()`: reservoir sample values, total
count, sum, and the percentile computation at a given quantile. -/
structure Snapshot where
  values : List ℚ
  count : Nat
  sum : ℚ
  percentile : ℚ → ℚ

/-- The go-metrics metric kinds dispatched on by `update()`. -/
inductive Metric : Type
  | counter (v : Int)
  | gauge (v : Int)
  | gaugeFloat64 (v : ℚ)
  | histogram (s : Snapshot)
  | meter (rate1 : ℚ)
  | timer (s : Snapshot) (rate1 : ℚ)

/-- The type switch at lines 153-168 of exporter.go: Histograms and Timers
expose a snapshot; anything else is the "unexpected metric type" error. -/
def snapshotOf : Metric → Option (Snapshot × Str)
  | Metric.histogram s => some (s, str "histogram")
  | Metric.timer s _ => some (s, str "timer")
  | _ => none

/-- Go's `uint64(x)` conversion of a float64, defined here for the
nonnegative in-range values that arise (truncation toward zero). -/
def toUint64 (q : ℚ) : Nat := q.floor.toNat

/-- Model of `prometheus.BuildFQName` (external collaborator): joins the
nonempty ones among namespace, subsystem and name with `_`. -/
def buildFQName (ns sub name : Str) : Str :=
  if name = [] then []
  else if ns ≠ [] ∧ sub ≠ [] then ns ++ str "_" ++ sub ++ str "_" ++ name
  else if ns ≠ [] then ns ++ str "_" ++ name
  else if sub ≠ [] then sub ++ str "_" ++ name
  else name

/-- Model of `exporter.histogramFromNameAndMetric`.  Mirrors the Go control
flow: look up / create-and-`MustRegister` the custom collector keyed by
`createKey(name)`; snapshot the metric (percentiles at the bucket boundaries,
count, sum); build the boundary → `uint64(percentile)` map; resolve labels
(skip → success no-op); check-and-insert the sanitized suffixed name in
`metricsNameMap` (hit → success no-op); build the const-histogram observation
and store it into the collector.  `prometheus.NewConstHistogram` only fails on
an invalid descriptor, which the model's descriptors never are. -/
def histogramFromNameAndMetric (st0 : ExpState) (name : Str) (goMetric : Metric)
    (buckets : List ℚ) : Option GoErr × ExpState :=
  let key := createKey st0.opt name
  match assocGet st0.customMetrics key with
  | some r => histogramWithCollector st0 name goMetric buckets r
  | none =>
    histogramWithCollector
      { st0 with collHeap := assocSet st0.collHeap st0.nextColl none,
                 collRegLog := st0.collRegLog + 1,
                 customMetrics := assocSet st0.customMetrics key st0.nextColl,
                 nextColl := st0.nextColl + 1 }
      name goMetric buckets st0.nextColl
where
  /-- Continuation after the collector lookup (lines 148-207 of exporter.go). -/
  histogramWithCollector (st0 : ExpState) (name : Str) (goMetric : Metric)
      (buckets : List ℚ) (collRef : Nat) : Option GoErr × ExpState :=
    match snapshotOf goMetric with
    | none => (some GoErr.unexpectedMetricType, st0)
    | some (s, typeName) =>
      let ps := buckets.map s.percentile
      let bucketVals := (buckets.zip ps).foldl
        (fun m p => assocSet m p.1 (toUint64 p.2)) []
      let res := metricNameAndLabels st0 name
      let name2 := res.1.1
      let lref := res.1.2.1
      let skip := res.1.2.2
      let st := res.2
      if skip then (none, st)
      else
        let metricName := sanitizeName name2 ++ str "_" ++ typeName
        if metricName ∈ st.metricsNameMap then (none, st)
        else
          let st1 := { st with metricsNameMap := metricName :: st.metricsNameMap }
          let hist : ConstHist :=
            { fqName := buildFQName (sanitizeName st1.opt.ns)
                (sanitizeName st1.opt.sub) metricName,
              help := sanitizeName name2,
              constLabels := heapGet st1.heap lref,
              count := s.count, sum := s.sum, buckets := bucketVals }
          (none, { st1 with collHeap := assocSet st1.collHeap collRef (some hist) })

/-- One iteration of the `registry.Each` callback in `update()`: dispatch on
the metric kind and overwrite the shared `err` variable exactly as the Go
closure does (the histogram arm leaves `err` untouched when the reservoir is
empty, and publishes the histogram only when `err` is then nil). -/
def updateOne (env : Env) (acc : ExpState × Option GoErr) (nm : Str × Metric) :
    ExpState × Option GoErr :=
  match nm.2 with
  | Metric.counter v =>
    let r := gaugeFromNameAndValue env acc.1 nm.1 (v : ℚ)
    (r.2, r.1)
  | Metric.gauge v =>
    let r := gaugeFromNameAndValue env acc.1 nm.1 (v : ℚ)
    (r.2, r.1)
  | Metric.gaugeFloat64 v =>
    let r := gaugeFromNameAndValue env acc.1 nm.1 v
    (r.2, r.1)
  | Metric.histogram s =>
    let acc1 :=
      if s.values ≠ [] then
        let r := gaugeFromNameAndValue env acc.1 nm.1 (s.values.getLastD 0)
        (r.2, r.1)
      else acc
    if acc1.2 = none then
      let r := histogramFromNameAndMetric acc1.1 nm.1 (Metric.histogram s)
        acc1.1.histogramBuckets
      (r.2, r.1)
    else acc1
  | Metric.meter rate1 =>
    let r := gaugeFromNameAndValue env acc.1 nm.1 rate1
    (r.2, r.1)
  | Metric.timer s rate1 =>
    let r := gaugeFromNameAndValue env acc.1 nm.1 rate1
    if r.1 = none then
      let r2 := histogramFromNameAndMetric r.2 nm.1 (Metric.timer s rate1)
        r.2.timerBuckets
      (r2.2, r2.1)
    else (r.2, r.1)

/-- The `registry.Each` fold with the shared `err` variable threaded through. -/
def updateAux (env : Env) (acc : ExpState × Option GoErr)
    (registry : List (Str × Metric)) : ExpState × Option GoErr :=
  registry.foldl (updateOne env) acc

/-- Model of `exporter.update()`: iterate every registered metric, then return
the final value of the shared `err` variable. -/
def update (env : Env) (st : ExpState) (registry : List (Str × Metric)) :
    ExpState × Option GoErr :=
  updateAux env (st, none) registry

/-- A freshly constructed exporter state: empty caches, the configured base
label map stored in heap cell 1. -/
def mkExporter (ns sub : Str) (baseLabels : List (Str × Str))
    (hb tb : List ℚ) : ExpState :=
  { opt := { ns := ns, sub := sub, labelsRef := 1 },
    heap := [(1, baseLabels)],
    gauges := [], labelsMap := [], metricsNameMap := [],
    customMetrics := [], collHeap := [], collRegLog := 0, nextColl := 1,
    regLog := [], histogramBuckets := hb, timerBuckets := tb }

/-- A publish operation, as dispatched by the update cycle: the claims about
registration dedup quantify over arbitrary sequences of these. -/
inductive PubOp : Type
  | pubGauge (name : Str) (val : ℚ)
  | pubHist (name : Str) (m : Metric) (buckets : List ℚ)

/-- Apply one publish operation (dropping the error, which does not influence
the state transition). -/
def runOp (env : Env) (st : ExpState) : PubOp → ExpState
  | PubOp.pubGauge n v => (gaugeFromNameAndValue env st n v).2
  | PubOp.pubHist n m bk => (histogramFromNameAndMetric st n m bk).2

/-- Apply a sequence of publish operations. -/
def runOps (env : Env) (st : ExpState) (ops : List PubOp) : ExpState :=
  ops.foldl (runOp env) st

/-- The "register always succeeds" behaviour of an empty external registry. -/
def envOk : Env := fun _ => RegResult.ok

/-- C6: sanitization is idempotent, and every character of the result lies in
the class `[a-zA-Z0-9_:]`; every character outside the class is mapped to `_`
by a total function with no failure mode. -/
theorem claim6_sanitize (s : Str) :
    sanitizeName (sanitizeName s) = sanitizeName s ∧
    (sanitizeName s).all allowedChar = true := by
  constructor
  · simp only [sanitizeName, List.map_map]
    exact List.map_congr_left fun c _ => by
      simp only [Function.comp_apply, sanitizeChar_idem]
  · simp only [sanitizeName, List.all_eq_true]
    intro c hc
    obtain ⟨c', -, rfl⟩ := List.mem_map.mp hc
    exact allowedChar_sanitizeChar c'

/-- C5: the Name Parser splits on the first occurrence of `-for-broker-` into
(base, broker, "") if present; otherwise on the first occurrence of
`-for-topic-` into (base, "", topic); otherwise returns the name unchanged
with empty broker and topic.  There is no error case: the function is total. -/
theorem claim5_parse (name : Str) :
    (occursIn brokerMarker name →
      ∃ base rest, parseMetricName name = (base, rest, []) ∧
        name = base ++ brokerMarker ++ rest ∧
        ∀ p q, name = p ++ brokerMarker ++ q → base.length ≤ p.length) ∧
    (¬ occursIn brokerMarker name → occursIn topicMarker name →
      ∃ base rest, parseMetricName name = (base, [], rest) ∧
        name = base ++ topicMarker ++ rest ∧
        ∀ p q, name = p ++ topicMarker ++ q → base.length ≤ p.length) ∧
    (¬ occursIn brokerMarker name → ¬ occursIn topicMarker name →
      parseMetricName name = (name, [], [])) := by
  refine ⟨?_, ?_, ?_⟩
  · intro hocc
    have hs : (splitOnFirst brokerMarker name).isSome = true :=
      (splitOnFirst_isSome _ _).mpr hocc
    match hb : splitOnFirst brokerMarker name with
    | none => rw [hb] at hs; cases hs
    | some (a, b) =>
      refine ⟨a, b, ?_, splitOnFirst_sound _ _ _ _ hb, splitOnFirst_min _ _ _ _ hb⟩
      simp [parseMetricName, hb]
  · intro hnb hocc
    have hb := not_occursIn_splitOnFirst_eq_none hnb
    have hs : (splitOnFirst topicMarker name).isSome = true :=
      (splitOnFirst_isSome _ _).mpr hocc
    match ht : splitOnFirst topicMarker name with
    | none => rw [ht] at hs; cases hs
    | some (a, b) =>
      refine ⟨a, b, ?_, splitOnFirst_sound _ _ _ _ ht, splitOnFirst_min _ _ _ _ ht⟩
      simp [parseMetricName, hb, ht]
  · intro hnb hnt
    simp [parseMetricName, not_occursIn_splitOnFirst_eq_none hnb,
      not_occursIn_splitOnFirst_eq_none hnt]

/-- Witness for C5 at three concrete names, one per marker case. -/
theorem claim5_parse_witness :
    (occursIn brokerMarker (str "a-for-broker-1") ∧
      (∃ base rest, parseMetricName (str "a-for-broker-1") = (base, rest, []) ∧
        str "a-for-broker-1" = base ++ brokerMarker ++ rest ∧
        ∀ p q, str "a-for-broker-1" = p ++ brokerMarker ++ q →
          base.length ≤ p.length)) ∧
    (¬ occursIn brokerMarker (str "b-for-topic-x") ∧
      occursIn topicMarker (str "b-for-topic-x") ∧
      (∃ base rest, parseMetricName (str "b-for-topic-x") = (base, [], rest) ∧
        str "b-for-topic-x" = base ++ topicMarker ++ rest ∧
        ∀ p q, str "b-for-topic-x" = p ++ topicMarker ++ q →
          base.length ≤ p.length)) ∧
    (¬ occursIn brokerMarker (str "produce-errors") ∧
      ¬ occursIn topicMarker (str "produce-errors") ∧
      parseMetricName (str "produce-errors") = (str "produce-errors", [], [])) :=
  ⟨⟨by decide, (claim5_parse _).1 (by decide)⟩,
   ⟨by decide, by decide, (claim5_parse _).2.1 (by decide) (by decide)⟩,
   ⟨by decide, by decide, (claim5_parse _).2.2 (by decide) (by decide)⟩⟩

/-- C7: for a raw name containing neither dimension marker, the Label Resolver
reports skip = true, and the gauge publish is a successful no-op: it returns
nil and leaves the whole exporter state (handle cache, name-dedup set,
registration log, label cache, heap) unchanged. -/
theorem claim7_skip_noop (env : Env) (st : ExpState) (name : Str) (v : ℚ)
    (hb : ¬ occursIn brokerMarker name) (ht : ¬ occursIn topicMarker name) :
    (metricNameAndLabels st name).1.2.2 = true ∧
    gaugeFromNameAndValue env st name v = (none, st) := by
  have hp : parseMetricName name = (name, [], []) := by
    simp [parseMetricName, not_occursIn_splitOnFirst_eq_none hb,
      not_occursIn_splitOnFirst_eq_none ht]
  have hm : metricNameAndLabels st name = ((name, 0, true), st) := by
    simp [metricNameAndLabels, hp]
  exact ⟨by rw [hm], by simp [gaugeFromNameAndValue, hm]⟩

/-- Witness for C7: the `produce-errors` counter from the spec's scenario 1,
published against a fresh exporter. -/
theorem claim7_skip_noop_witness :
    ¬ occursIn brokerMarker (str "produce-errors") ∧
    ¬ occursIn topicMarker (str "produce-errors") ∧
    ((metricNameAndLabels (mkExporter (str "") (str "") [] [] [])
        (str "produce-errors")).1.2.2 = true ∧
      gaugeFromNameAndValue envOk (mkExporter (str "") (str "") [] [] [])
        (str "produce-errors") 5 =
        (none, mkExporter (str "") (str "") [] [] [])) :=
  ⟨by decide, by decide,
   claim7_skip_noop envOk (mkExporter (str "") (str "") [] [] [])
     (str "produce-errors") 5 (by decide) (by decide)⟩

theorem heapGet_assocSet_self (h : List (Nat × List (Str × Str))) (r : Nat)
    (m : List (Str × Str)) : heapGet (assocSet h r m) r = m := by
  simp [heapGet, assocGet_assocSet_self]

/-- Unfolding of the Label Resolver in the skip case (no dimension parsed). -/
theorem mnal_skip (st : ExpState) (n : Str)
    (h : (parseMetricName n).2.1 = [] ∧ (parseMetricName n).2.2 = []) :
    metricNameAndLabels st n = (((parseMetricName n).1, 0, true), st) := by
  simp only [metricNameAndLabels]
  rw [if_pos h]

/-- Unfolding of the Label Resolver on a label-cache hit. -/
theorem mnal_hit (st : ExpState) (n : Str) (r : Nat)
    (hd : ¬((parseMetricName n).2.1 = [] ∧ (parseMetricName n).2.2 = []))
    (hm : assocGet st.labelsMap n = some r) :
    metricNameAndLabels st n = (((parseMetricName n).1, r, false), st) := by
  simp only [metricNameAndLabels]
  rw [if_neg hd, hm]

/-- Unfolding of the Label Resolver on a label-cache miss: the configured map
reference `opt.labelsRef` itself is cached, and the shared cell is mutated. -/
theorem mnal_miss (st : ExpState) (n : Str)
    (hd : ¬((parseMetricName n).2.1 = [] ∧ (parseMetricName n).2.2 = []))
    (hm : assocGet st.labelsMap n = none) :
    metricNameAndLabels st n =
      (((parseMetricName n).1, st.opt.labelsRef, false),
       { st with heap := mnalHeap st n,
                 labelsMap := assocSet st.labelsMap n st.opt.labelsRef }) := by
  simp only [metricNameAndLabels]
  rw [if_neg hd, hm]

/-- The Label Resolver only touches the heap and the label cache: every other
state component is preserved. -/
theorem mnal_preserves (st : ExpState) (n : Str) :
    (metricNameAndLabels st n).2.gauges = st.gauges ∧
    (metricNameAndLabels st n).2.metricsNameMap = st.metricsNameMap ∧
    (metricNameAndLabels st n).2.regLog = st.regLog ∧
    (metricNameAndLabels st n).2.opt = st.opt ∧
    (metricNameAndLabels st n).2.customMetrics = st.customMetrics ∧
    (metricNameAndLabels st n).2.collHeap = st.collHeap ∧
    (metricNameAndLabels st n).2.collRegLog = st.collRegLog ∧
    (metricNameAndLabels st n).2.nextColl = st.nextColl ∧
    (metricNameAndLabels st n).2.histogramBuckets = st.histogramBuckets ∧
    (metricNameAndLabels st n).2.timerBuckets = st.timerBuckets := by
  by_cases hsk : (parseMetricName n).2.1 = [] ∧ (parseMetricName n).2.2 = []
  · rw [mnal_skip st n hsk]
    exact ⟨rfl, rfl, rfl, rfl, rfl, rfl, rfl, rfl, rfl, rfl⟩
  · match hm : assocGet st.labelsMap n with
    | some r =>
      rw [mnal_hit st n r hsk hm]
      exact ⟨rfl, rfl, rfl, rfl, rfl, rfl, rfl, rfl, rfl, rfl⟩
    | none =>
      rw [mnal_miss st n hsk hm]
      exact ⟨rfl, rfl, rfl, rfl, rfl, rfl, rfl, rfl, rfl, rfl⟩

/-- After the shared-map mutation for `n`, the parsed broker value of `n` is
readable under the `broker` key of the configured label cell. -/
theorem mnalHeap_broker (st : ExpState) (n : Str)
    (hb : (parseMetricName n).2.1 ≠ []) :
    assocGet (heapGet (mnalHeap st n) st.opt.labelsRef) (str "broker") =
      some (parseMetricName n).2.1 := by
  by_cases ht : (parseMetricName n).2.2 = []
  · simp only [mnalHeap, if_pos hb, if_neg (not_not_intro ht), heapGet_assocSet_self,
      assocGet_assocSet_self]
  · have hbt : str "broker" ≠ str "topic" := by decide
    simp only [mnalHeap, if_pos hb, if_pos ht, heapGet_assocSet_self]
    rw [assocGet_assocSet_ne _ _ _ _ hbt, assocGet_assocSet_self]

/-- After the shared-map mutation for `n`, the parsed topic value of `n` is
readable under the `topic` key of the configured label cell. -/
theorem mnalHeap_topic (st : ExpState) (n : Str)
    (ht : (parseMetricName n).2.2 ≠ []) :
    assocGet (heapGet (mnalHeap st n) st.opt.labelsRef) (str "topic") =
      some (parseMetricName n).2.2 := by
  simp only [mnalHeap, if_pos ht, heapGet_assocSet_self, assocGet_assocSet_self]

/-- C10: on a label-cache miss the resolver caches the configured base label
map itself (the reference `opt.labelsRef`, not a copy) and mutates that shared
map in place.  After resolving two distinct raw names, both cache entries
alias the configured map reference, and the second resolution's dimension is
visible through the cell that the first name's cached entry (and the
configuration) points to. -/
theorem claim10_label_alias (st : ExpState) (n1 n2 : Str)
    (hd1 : ¬((parseMetricName n1).2.1 = [] ∧ (parseMetricName n1).2.2 = []))
    (hd2 : ¬((parseMetricName n2).2.1 = [] ∧ (parseMetricName n2).2.2 = []))
    (hm1 : assocGet st.labelsMap n1 = none)
    (hm2 : assocGet st.labelsMap n2 = none)
    (hne : n2 ≠ n1) :
    assocGet (metricNameAndLabels (metricNameAndLabels st n1).2 n2).2.labelsMap n1
        = some st.opt.labelsRef ∧
    assocGet (metricNameAndLabels (metricNameAndLabels st n1).2 n2).2.labelsMap n2
        = some st.opt.labelsRef ∧
    ((parseMetricName n2).2.1 ≠ [] →
      assocGet (heapGet (metricNameAndLabels (metricNameAndLabels st n1).2 n2).2.heap
          st.opt.labelsRef) (str "broker") = some (parseMetricName n2).2.1) ∧
    ((parseMetricName n2).2.2 ≠ [] →
      assocGet (heapGet (metricNameAndLabels (metricNameAndLabels st n1).2 n2).2.heap
          st.opt.labelsRef) (str "topic") = some (parseMetricName n2).2.2) := by
  rw [mnal_miss st n1 hd1 hm1]
  have hm2' : assocGet (assocSet st.labelsMap n1 st.opt.labelsRef) n2 = none := by
    rw [assocGet_assocSet_ne _ _ _ _ hne, hm2]
  rw [mnal_miss _ n2 hd2 hm2']
  refine ⟨?_, ?_, ?_, ?_⟩
  · show assocGet (assocSet (assocSet st.labelsMap n1 st.opt.labelsRef) n2 _) n1
        = some st.opt.labelsRef
    rw [assocGet_assocSet_ne _ _ _ _ (Ne.symm hne), assocGet_assocSet_self]
  · exact assocGet_assocSet_self _ _ _
  · intro hb
    exact mnalHeap_broker _ n2 hb
  · intro ht
    exact mnalHeap_topic _ n2 ht

/-- Witness for C10: a broker-dimension name and a topic-dimension name
resolved back to back against a fresh exporter. -/
theorem claim10_label_alias_witness :
    (¬((parseMetricName (str "a-for-broker-1")).2.1 = [] ∧
        (parseMetricName (str "a-for-broker-1")).2.2 = []) ∧
      ¬((parseMetricName (str "b-for-topic-x")).2.1 = [] ∧
        (parseMetricName (str "b-for-topic-x")).2.2 = []) ∧
      assocGet (mkExporter (str "") (str "") [] [] []).labelsMap
        (str "a-for-broker-1") = none ∧
      assocGet (mkExporter (str "") (str "") [] [] []).labelsMap
        (str "b-for-topic-x") = none ∧
      str "b-for-topic-x" ≠ str "a-for-broker-1") ∧
    (assocGet (metricNameAndLabels
          (metricNameAndLabels (mkExporter (str "") (str "") [] [] [])
            (str "a-for-broker-1")).2 (str "b-for-topic-x")).2.labelsMap
        (str "a-for-broker-1")
      = some (mkExporter (str "") (str "") [] [] []).opt.labelsRef ∧
     assocGet (metricNameAndLabels
          (metricNameAndLabels (mkExporter (str "") (str "") [] [] [])
            (str "a-for-broker-1")).2 (str "b-for-topic-x")).2.labelsMap
        (str "b-for-topic-x")
      = some (mkExporter (str "") (str "") [] [] []).opt.labelsRef ∧
     ((parseMetricName (str "b-for-topic-x")).2.1 ≠ [] →
       assocGet (heapGet (metricNameAndLabels
            (metricNameAndLabels (mkExporter (str "") (str "") [] [] [])
              (str "a-for-broker-1")).2 (str "b-for-topic-x")).2.heap
          (mkExporter (str "") (str "") [] [] []).opt.labelsRef) (str "broker")
        = some (parseMetricName (str "b-for-topic-x")).2.1) ∧
     ((parseMetricName (str "b-for-topic-x")).2.2 ≠ [] →
       assocGet (heapGet (metricNameAndLabels
            (metricNameAndLabels (mkExporter (str "") (str "") [] [] [])
              (str "a-for-broker-1")).2 (str "b-for-topic-x")).2.heap
          (mkExporter (str "") (str "") [] [] []).opt.labelsRef) (str "topic")
        = some (parseMetricName (str "b-for-topic-x")).2.2)) :=
  ⟨⟨by decide, by decide, by decide, by decide, by decide⟩,
   claim10_label_alias (mkExporter (str "") (str "") [] [] [])
     (str "a-for-broker-1") (str "b-for-topic-x")
     (by decide) (by decide) (by decide) (by decide) (by decide)⟩

/-- The gauge-vector description built at lines 70-75 of exporter.go, from the
post-resolution state `st`, short name `sn` and labels reference `lr`. -/
def mkGaugeDesc (st : ExpState) (sn : Str) (lr : Nat) : GaugeVecDesc :=
  { ns := sanitizeName st.opt.ns, sub := sanitizeName st.opt.sub,
    name := sanitizeName sn, help := sn,
    labelNames := (heapGet st.heap lr).map Prod.fst }

/-- The result of the creation branch of the gauge publisher (no cached
handle, name-dedup miss), as a function of the environment's `Register`
answer. -/
def gaugeCreateResult (env : Env) (st : ExpState) (sn : Str) (lr : Nat)
    (name : Str) (val : ℚ) : Option GoErr × ExpState :=
  let g := mkGaugeDesc st sn lr
  let st1 := { st with metricsNameMap := sanitizeName sn :: st.metricsNameMap }
  let st2 := { st1 with regLog := st1.regLog ++ [g] }
  match env g with
  | RegResult.ok =>
    let h : GaugeHandle := { vec := g, labelVals := heapGet st.heap lr, value := val }
    (none, { st2 with gauges := assocSet st2.gauges name h })
  | RegResult.alreadyRegistered (PromCollector.gaugeVec d) =>
    let h : GaugeHandle := { vec := d, labelVals := heapGet st.heap lr, value := val }
    (none, { st2 with gauges := assocSet st2.gauges name h })
  | RegResult.alreadyRegistered (PromCollector.otherCol _) =>
    (some GoErr.typeMismatch, st2)
  | RegResult.failed e => (some e, st2)

/-- Unfolding of the gauge publisher in its creation branch. -/
theorem gauge_create (env : Env) (st0 st : ExpState) (name sn : Str) (lr : Nat)
    (val : ℚ)
    (hmn : metricNameAndLabels st0 name = ((sn, lr, false), st))
    (hg : assocGet st.gauges name = none)
    (hms : sanitizeName sn ∉ st.metricsNameMap) :
    gaugeFromNameAndValue env st0 name val = gaugeCreateResult env st sn lr name val := by
  simp only [gaugeFromNameAndValue, hmn, hg, gaugeCreateResult, mkGaugeDesc,
    Bool.false_eq_true, if_false]
  rw [if_neg hms]

/-- The gauge-vector description that a publish of `name` against state `st0`
builds (the Label Resolver may mutate the heap first, so the description is a
function of the resolver's output). -/
def gaugeDescOf (st0 : ExpState) (name : Str) : GaugeVecDesc :=
  mkGaugeDesc (metricNameAndLabels st0 name).2 (metricNameAndLabels st0 name).1.1
    (metricNameAndLabels st0 name).1.2.1

/-- The label values a publish of `name` against `st0` binds its handle to. -/
def labelValsOf (st0 : ExpState) (name : Str) : List (Str × Str) :=
  heapGet (metricNameAndLabels st0 name).2.heap (metricNameAndLabels st0 name).1.2.1

/-- C9: when the registration call answers `AlreadyRegisteredError`, the
publisher reuses the existing collector if it is a `*prometheus.GaugeVec`
(publish succeeds silently, binding the handle to the existing vector);
if the existing collector has another concrete kind the publish returns the
type-mismatch error; any other registration failure is returned as-is. -/
theorem gauge_create_outcomes (env : Env) (st0 st' : ExpState) (name : Str)
    (lr : Nat) (val : ℚ)
    (hmn : metricNameAndLabels st0 name = (((parseMetricName name).1, lr, false), st'))
    (hg : assocGet st'.gauges name = none)
    (hms : sanitizeName (parseMetricName name).1 ∉ st'.metricsNameMap) :
    (∀ d, env (gaugeDescOf st0 name) =
        RegResult.alreadyRegistered (PromCollector.gaugeVec d) →
      (gaugeFromNameAndValue env st0 name val).1 = none ∧
      assocGet (gaugeFromNameAndValue env st0 name val).2.gauges name =
        some { vec := d, labelVals := labelValsOf st0 name, value := val }) ∧
    (∀ t, env (gaugeDescOf st0 name) =
        RegResult.alreadyRegistered (PromCollector.otherCol t) →
      (gaugeFromNameAndValue env st0 name val).1 = some GoErr.typeMismatch) ∧
    (∀ e, env (gaugeDescOf st0 name) = RegResult.failed e →
      (gaugeFromNameAndValue env st0 name val).1 = some e) := by
  have hcr := gauge_create env st0 st' name (parseMetricName name).1 lr val hmn hg hms
  have hdesc : gaugeDescOf st0 name = mkGaugeDesc st' (parseMetricName name).1 lr := by
    simp only [gaugeDescOf, hmn]
  have hlv : labelValsOf st0 name = heapGet st'.heap lr := by
    simp only [labelValsOf, hmn]
  refine ⟨?_, ?_, ?_⟩
  · intro d henv
    rw [hdesc] at henv
    rw [hcr, hlv]
    simp only [gaugeCreateResult, henv]
    refine ⟨trivial, ?_⟩
    exact assocGet_assocSet_self _ _ _
  · intro t henv
    rw [hdesc] at henv
    rw [hcr]
    simp only [gaugeCreateResult, henv]
  · intro e henv
    rw [hdesc] at henv
    rw [hcr]
    simp only [gaugeCreateResult, henv]

/-- C9: when the registration call answers `AlreadyRegisteredError`, the
publisher reuses the existing collector if it is a `*prometheus.GaugeVec`
(publish succeeds silently, binding the handle to the existing vector);
if the existing collector has another concrete kind the publish returns the
type-mismatch error; any other registration failure is returned as-is. -/
theorem claim9_reregistration (env : Env) (st0 : ExpState) (name : Str) (val : ℚ)
    (hd : ¬((parseMetricName name).2.1 = [] ∧ (parseMetricName name).2.2 = []))
    (hg : assocGet st0.gauges name = none)
    (hms : sanitizeName (parseMetricName name).1 ∉ st0.metricsNameMap) :
    (∀ d, env (gaugeDescOf st0 name) =
        RegResult.alreadyRegistered (PromCollector.gaugeVec d) →
      (gaugeFromNameAndValue env st0 name val).1 = none ∧
      assocGet (gaugeFromNameAndValue env st0 name val).2.gauges name =
        some { vec := d, labelVals := labelValsOf st0 name, value := val }) ∧
    (∀ t, env (gaugeDescOf st0 name) =
        RegResult.alreadyRegistered (PromCollector.otherCol t) →
      (gaugeFromNameAndValue env st0 name val).1 = some GoErr.typeMismatch) ∧
    (∀ e, env (gaugeDescOf st0 name) = RegResult.failed e →
      (gaugeFromNameAndValue env st0 name val).1 = some e) := by
  match hcache : assocGet st0.labelsMap name with
  | some r =>
    exact gauge_create_outcomes env st0 st0 name r val
      (mnal_hit st0 name r hd hcache) hg hms
  | none =>
    exact gauge_create_outcomes env st0 _ name st0.opt.labelsRef val
      (mnal_miss st0 name hd hcache) hg hms

/-- Rational literal `n / d`, given in lowest terms as a raw constructor so
that kernel computation on it is possible (rational arithmetic operations do
not reduce definitionally). -/
def ratLit (n : Int) (d : Nat) (h1 : d ≠ 0 := by decide)
    (h2 : n.natAbs.Coprime d := by decide) : ℚ := ⟨n, d, h1, h2⟩

/-- A fresh exporter with empty namespace, subsystem and base labels, and the
bucket configuration [0.5, 0.95] used by the spec's histogram scenario. -/
def st0F : ExpState := mkExporter (str "") (str "") [] [ratLit 1 2, ratLit 19 20] []

/-- An arbitrary pre-existing gauge vector held by the external registry. -/
def descX : GaugeVecDesc :=
  { ns := [], sub := [], name := str "x", help := str "x",
    labelNames := [str "broker"] }

/-- Registry behaviour: always answers "already registered" with a gauge
vector. -/
def envReuse : Env := fun _ => RegResult.alreadyRegistered (PromCollector.gaugeVec descX)

/-- Registry behaviour: always answers "already registered" with a collector
of a different concrete kind. -/
def envOther : Env := fun _ => RegResult.alreadyRegistered (PromCollector.otherCol 0)

/-- Registry behaviour: always fails with a generic error. -/
def envFail : Env := fun _ => RegResult.failed (GoErr.envErr 7)

/-- Witness for C9: publishing `x-for-broker-1` against a fresh exporter under
the three registry behaviours. -/
theorem claim9_reregistration_witness :
    (¬((parseMetricName (str "x-for-broker-1")).2.1 = [] ∧
        (parseMetricName (str "x-for-broker-1")).2.2 = []) ∧
      assocGet st0F.gauges (str "x-for-broker-1") = none ∧
      sanitizeName (parseMetricName (str "x-for-broker-1")).1 ∉ st0F.metricsNameMap) ∧
    ((gaugeFromNameAndValue envReuse st0F (str "x-for-broker-1") 3).1 = none ∧
      assocGet (gaugeFromNameAndValue envReuse st0F (str "x-for-broker-1") 3).2.gauges
          (str "x-for-broker-1") =
        some { vec := descX,
               labelVals := labelValsOf st0F (str "x-for-broker-1"), value := 3 }) ∧
    (gaugeFromNameAndValue envOther st0F (str "x-for-broker-1") 3).1 =
      some GoErr.typeMismatch ∧
    (gaugeFromNameAndValue envFail st0F (str "x-for-broker-1") 3).1 =
      some (GoErr.envErr 7) :=
  ⟨⟨by decide, by decide, by decide⟩,
   (claim9_reregistration envReuse st0F (str "x-for-broker-1") 3
      (by decide) (by decide) (by decide)).1 descX rfl,
   (claim9_reregistration envOther st0F (str "x-for-broker-1") 3
      (by decide) (by decide) (by decide)).2.1 0 rfl,
   (claim9_reregistration envFail st0F (str "x-for-broker-1") 3
      (by decide) (by decide) (by decide)).2.2 (GoErr.envErr 7) rfl⟩

/-- Raw name of the first topic variant in the spec's scenario 3. -/
def ordersName : Str := str "req-rate-for-topic-orders"

/-- Raw name of the second topic variant in the spec's scenario 3. -/
def paymentsName : Str := str "req-rate-for-topic-payments"

/-- C3 counterexample: publishing gauges for `req-rate-for-topic-orders` and
then `req-rate-for-topic-payments` against a fresh exporter registers the
vector once, but the second publish returns success WITHOUT creating a bound
handle for the payments topic — no second independently settable handle
exists, contrary to the claim. -/
theorem claim3_counterexample :
    (gaugeFromNameAndValue envOk
        (gaugeFromNameAndValue envOk st0F ordersName 1).2 paymentsName 2).1 = none ∧
    (gaugeFromNameAndValue envOk
        (gaugeFromNameAndValue envOk st0F ordersName 1).2 paymentsName 2).2.regLog.length
      = 1 ∧
    assocGet (gaugeFromNameAndValue envOk
        (gaugeFromNameAndValue envOk st0F ordersName 1).2 paymentsName 2).2.gauges
      paymentsName = none := by
  refine ⟨rfl, rfl, rfl⟩

/-- The gauge-vector description registered for the `req_rate` base name. -/
def reqRateDesc : GaugeVecDesc :=
  { ns := [], sub := [], name := str "req_rate", help := str "req-rate",
    labelNames := [str "topic"] }

/-- C3 amended: for the two topic variants of base name `req-rate`, the gauge
vector is registered exactly once and ONE bound handle is created — for the
first-published topic, independently settable — while the publish for the
second topic returns success as a no-op (short-name dedup early-exit) and
creates no handle. -/
theorem claim3_amended (v1 v2 : ℚ) :
    (gaugeFromNameAndValue envOk
        (gaugeFromNameAndValue envOk st0F ordersName v1).2 paymentsName v2).1 = none ∧
    (gaugeFromNameAndValue envOk
        (gaugeFromNameAndValue envOk st0F ordersName v1).2 paymentsName v2).2.regLog
      = [reqRateDesc] ∧
    assocGet (gaugeFromNameAndValue envOk
        (gaugeFromNameAndValue envOk st0F ordersName v1).2 paymentsName v2).2.gauges
      ordersName =
      some { vec := reqRateDesc, labelVals := [(str "topic", str "orders")],
             value := v1 } ∧
    assocGet (gaugeFromNameAndValue envOk
        (gaugeFromNameAndValue envOk st0F ordersName v1).2 paymentsName v2).2.gauges
      paymentsName = none := by
  refine ⟨rfl, rfl, rfl, rfl⟩

/-- The histogram raw name of the spec's scenario 2. -/
def bRateName : Str := str "outgoing-byte-rate-for-broker-7"

/-- The gauge-vector description registered for scenario 2's base name. -/
def outByteDesc : GaugeVecDesc :=
  { ns := [], sub := [], name := str "outgoing_byte_rate",
    help := str "outgoing-byte-rate", labelNames := [str "broker"] }

/-- C8: for `outgoing-byte-rate-for-broker-7` with reservoir [10,20,30] and
bucket boundaries [0.5, 0.95], `update()` sets the gauge to 30 (the most
recent sample) with labels {broker: "7"}, and publishes a histogram
observation with those labels, count = 3, sum = 60, and a bucket map keying
each boundary to the (uint64-converted) quantile value computed at that
boundary — for any percentile computation `pf` of the upstream snapshot. -/
theorem claim8_scenario (pf : ℚ → ℚ) :
    (update envOk st0F [(bRateName,
        Metric.histogram
          { values := [10, 20, 30], count := 3, sum := 60, percentile := pf })]).2
      = none ∧
    assocGet (update envOk st0F [(bRateName,
        Metric.histogram
          { values := [10, 20, 30], count := 3, sum := 60, percentile := pf })]).1.gauges
      bRateName =
      some { vec := outByteDesc, labelVals := [(str "broker", str "7")],
             value := 30 } ∧
    assocGet (update envOk st0F [(bRateName,
        Metric.histogram
          { values := [10, 20, 30], count := 3, sum := 60, percentile := pf })]).1.collHeap
      1 =
      some (some
        { fqName := str "outgoing_byte_rate_histogram",
          help := str "outgoing_byte_rate",
          constLabels := [(str "broker", str "7")],
          count := 3, sum := 60,
          buckets := [(ratLit 1 2, toUint64 (pf (ratLit 1 2))),
                      (ratLit 19 20, toUint64 (pf (ratLit 19 20)))] }) := by
  refine ⟨rfl, rfl, rfl⟩

/-- First-cycle percentile computation for the C1 scenario. -/
def pfA : ℚ → ℚ := fun _ => 20

/-- Second-cycle percentile computation for the C1 scenario. -/
def pfB : ℚ → ℚ := fun _ => 40

/-- First-cycle snapshot: reservoir [10,20,30], count 3, sum 60. -/
def snapC1a : Snapshot :=
  { values := [10, 20, 30], count := 3, sum := 60, percentile := pfA }

/-- Second-cycle snapshot: reservoir [10,20,30,40], count 4, sum 100. -/
def snapC1b : Snapshot :=
  { values := [10, 20, 30, 40], count := 4, sum := 100, percentile := pfB }

/-- The exporter state after the first update cycle of the C1 scenario. -/
def stC1one : ExpState := (update envOk st0F [(bRateName, Metric.histogram snapC1a)]).1

/-- C1 counterexample: the second update cycle succeeds and still updates the
gauge (value 40), but the histogram collector's held observation is NOT
replaced: it still carries the first cycle's count 3, sum 60 and buckets,
although the second cycle's snapshot has count 4 — the name-dedup early-exit
at lines 182-185 of exporter.go returns before the observation is rebuilt,
contradicting "continuously overwritten on each cycle". -/
theorem claim1_counterexample :
    (update envOk stC1one [(bRateName, Metric.histogram snapC1b)]).2 = none ∧
    assocGet (update envOk stC1one
        [(bRateName, Metric.histogram snapC1b)]).1.gauges bRateName =
      some { vec := outByteDesc, labelVals := [(str "broker", str "7")],
             value := 40 } ∧
    assocGet (update envOk stC1one
        [(bRateName, Metric.histogram snapC1b)]).1.collHeap 1 =
      some (some
        { fqName := str "outgoing_byte_rate_histogram",
          help := str "outgoing_byte_rate",
          constLabels := [(str "broker", str "7")],
          count := 3, sum := 60,
          buckets := [(ratLit 1 2, 20), (ratLit 19 20, 20)] }) ∧
    snapC1b.count = 4 := by
  refine ⟨rfl, rfl, rfl, rfl⟩

/-- C1 amended: once a metric's collector exists, its label set is cached and
its suffixed series name is in the dedup set (the situation from the second
cycle on), a histogram publish returns success and leaves the state — the
held observation included — completely unchanged: the observation is built
and stored only by the cycle that first inserts the suffixed name. -/
theorem claim1_amended (st : ExpState) (name : Str) (s : Snapshot)
    (buckets : List ℚ) (r lr : Nat)
    (hc : assocGet st.customMetrics (createKey st.opt name) = some r)
    (hl : assocGet st.labelsMap name = some lr)
    (hm : sanitizeName (parseMetricName name).1 ++ str "_histogram" ∈
      st.metricsNameMap) :
    histogramFromNameAndMetric st name (Metric.histogram s) buckets = (none, st) := by
  simp only [histogramFromNameAndMetric, hc]
  simp only [histogramFromNameAndMetric.histogramWithCollector, snapshotOf]
  by_cases hsk : (parseMetricName name).2.1 = [] ∧ (parseMetricName name).2.2 = []
  · rw [mnal_skip st name hsk]
    simp
  · rw [mnal_hit st name lr hsk hl]
    have hcat : (str "_" ++ str "histogram" : Str) = str "_histogram" := rfl
    have hm' : sanitizeName (parseMetricName name).1 ++ str "_" ++ str "histogram" ∈
        st.metricsNameMap := by
      rw [List.append_assoc, hcat]
      exact hm
    simp only [hm', if_true, if_pos hm']
    simp

/-- Witness for C1's amended theorem: the state after the first cycle of the
C1 scenario, republished with the second cycle's snapshot. -/
theorem claim1_amended_witness :
    assocGet stC1one.customMetrics (createKey stC1one.opt bRateName) = some 1 ∧
    assocGet stC1one.labelsMap bRateName = some 1 ∧
    sanitizeName (parseMetricName bRateName).1 ++ str "_histogram" ∈
      stC1one.metricsNameMap ∧
    histogramFromNameAndMetric stC1one bRateName (Metric.histogram snapC1b)
      stC1one.histogramBuckets = (none, stC1one) :=
  ⟨by decide, by decide, by decide,
   claim1_amended stC1one bRateName snapC1b stC1one.histogramBuckets 1 1
     (by decide) (by decide) (by decide)⟩

/-- Registry behaviour for the C2 scenario: registering the `bad` gauge vector
answers "already registered" with an incompatible collector (provoking the
type-mismatch error); everything else registers fine. -/
def envBad : Env := fun d =>
  if d.name = str "bad" then RegResult.alreadyRegistered (PromCollector.otherCol 0)
  else RegResult.ok

/-- A two-metric registry whose first metric fails to publish. -/
def regC2 : List (Str × Metric) :=
  [(str "bad-for-broker-1", Metric.counter 5),
   (str "good-for-broker-2", Metric.counter 7)]

/-- C2 counterexample: the first metric's publish fails with the type-mismatch
error, yet `update()` over both metrics returns nil and the second metric IS
processed (its handle exists and is set to 7): the cycle does not abort at the
failing metric, and that metric's error is not the value returned. -/
theorem claim2_counterexample :
    (update envBad st0F [(str "bad-for-broker-1", Metric.counter 5)]).2 =
      some GoErr.typeMismatch ∧
    (update envBad st0F regC2).2 = none ∧
    assocGet (update envBad st0F regC2).1.gauges (str "good-for-broker-2") =
      some { vec := { ns := [], sub := [], name := str "good", help := str "good",
                      labelNames := [str "broker"] },
             labelVals := [(str "broker", str "2")], value := 7 } := by
  refine ⟨rfl, rfl, rfl⟩

/-- C2 amended: errors do not stop the iteration.  Processing `a ++ b` equals
processing `b` starting from the state and error left by `a` — every metric is
visited — and for every metric kind except the histogram arm (which reads the
shared `err` variable) the step's outcome is independent of the incoming
error: each such metric overwrites `err`, so `update()` returns the error
standing after the last metric and a later success masks an earlier failure. -/
theorem claim2_amended :
    (∀ (env : Env) (st : ExpState) (a b : List (Str × Metric)),
      update env st (a ++ b) = updateAux env (update env st a) b) ∧
    (∀ (env : Env) (st : ExpState) (e : Option GoErr) (nm : Str × Metric),
      (∀ s, nm.2 ≠ Metric.histogram s) →
      updateOne env (st, e) nm = updateOne env (st, none) nm) := by
  constructor
  · intro env st a b
    simp [update, updateAux, List.foldl_append]
  · intro env st e nm hnh
    match hm : nm.2 with
    | Metric.counter v => simp only [updateOne, hm]
    | Metric.gauge v => simp only [updateOne, hm]
    | Metric.gaugeFloat64 v => simp only [updateOne, hm]
    | Metric.meter r => simp only [updateOne, hm]
    | Metric.timer s r => simp only [updateOne, hm]
    | Metric.histogram s => exact absurd hm (hnh s)

/-- Witness for C2's amended theorem, at the C2 scenario's registry split in
two and at a counter metric fed a pre-existing error. -/
theorem claim2_amended_witness :
    (update envBad st0F (regC2.take 1 ++ regC2.drop 1) =
      updateAux envBad (update envBad st0F (regC2.take 1)) (regC2.drop 1)) ∧
    (∀ s, (Metric.counter 1) ≠ Metric.histogram s) ∧
    updateOne envOk (st0F, some GoErr.typeMismatch) (str "n", Metric.counter 1) =
      updateOne envOk (st0F, none) (str "n", Metric.counter 1) :=
  ⟨claim2_amended.1 envBad st0F (regC2.take 1) (regC2.drop 1),
   fun _ h => Metric.noConfusion h,
   claim2_amended.2 envOk st0F (some GoErr.typeMismatch) (str "n", Metric.counter 1)
     (fun _ h => Metric.noConfusion h)⟩

/-- The at-most-once registration invariant: the gauge-vector registration log
contains pairwise-distinct sanitized names, and every registered name has been
recorded in the `metricsNameMap` dedup set. -/
def RegInv (st : ExpState) : Prop :=
  (st.regLog.map GaugeVecDesc.name).Nodup ∧
  ∀ d ∈ st.regLog, d.name ∈ st.metricsNameMap

theorem regInv_of_eq {st st' : ExpState} (h : RegInv st)
    (hRL : st'.regLog = st.regLog) (hMN : st'.metricsNameMap = st.metricsNameMap) :
    RegInv st' := by
  constructor
  · rw [hRL]; exact h.1
  · intro d hd
    rw [hMN]
    exact h.2 d (hRL ▸ hd)

theorem regInv_insert (st' : ExpState) (sn : Str) (lr : Nat) (h : RegInv st')
    (hmem : sanitizeName sn ∉ st'.metricsNameMap) :
    RegInv { st' with
      metricsNameMap := sanitizeName sn :: st'.metricsNameMap
      regLog := st'.regLog ++ [mkGaugeDesc st' sn lr] } := by
  constructor
  · show ((st'.regLog ++ [mkGaugeDesc st' sn lr]).map GaugeVecDesc.name).Nodup
    rw [List.map_append]
    rw [List.nodup_append]
    refine ⟨h.1, List.nodup_singleton _, ?_⟩
    intro x hx hx2
    have hxs : x = sanitizeName sn := by simpa [mkGaugeDesc] using hx2
    obtain ⟨d, hd, hdn⟩ := List.mem_map.mp hx
    exact hmem (by rw [← hxs, ← hdn] at hmem ⊢; exact h.2 d hd)
  · intro d hd
    rcases List.mem_append.mp hd with hd1 | hd2
    · exact List.mem_cons_of_mem _ (h.2 d hd1)
    · have : d = mkGaugeDesc st' sn lr := by simpa using hd2
      rw [this]
      exact List.mem_cons_self _ _

theorem regInv_gaugeCreateResult (env : Env) (st' : ExpState) (sn : Str)
    (lr : Nat) (n : Str) (v : ℚ) (h : RegInv st')
    (hmem : sanitizeName sn ∉ st'.metricsNameMap) :
    RegInv (gaugeCreateResult env st' sn lr n v).2 := by
  have h2 := regInv_insert st' sn lr h hmem
  simp only [gaugeCreateResult]
  cases henv : env (mkGaugeDesc st' sn lr) with
  | ok => exact regInv_of_eq h2 rfl rfl
  | alreadyRegistered c =>
    cases c with
    | gaugeVec d => exact regInv_of_eq h2 rfl rfl
    | otherCol t => exact h2
  | failed e => exact h2

/-- Unfolding of the gauge publisher when the Label Resolver reports skip. -/
theorem gauge_skip (env : Env) (st0 st : ExpState) (name sn : Str) (lr : Nat)
    (val : ℚ) (hmn : metricNameAndLabels st0 name = ((sn, lr, true), st)) :
    gaugeFromNameAndValue env st0 name val = (none, st) := by
  simp only [gaugeFromNameAndValue, hmn]
  simp

/-- Unfolding of the gauge publisher when a handle is already cached for the
raw name: only the handle's value is set. -/
theorem gauge_hit (env : Env) (st0 st : ExpState) (name sn : Str) (lr : Nat)
    (val : ℚ) (g : GaugeHandle)
    (hmn : metricNameAndLabels st0 name = ((sn, lr, false), st))
    (hg : assocGet st.gauges name = some g) :
    gaugeFromNameAndValue env st0 name val =
      (none, { st with gauges := assocSet st.gauges name { g with value := val } }) := by
  simp only [gaugeFromNameAndValue, hmn, hg, Bool.false_eq_true, if_false]

/-- Unfolding of the gauge publisher on a name-dedup hit: success, state
unchanged from the resolver's output. -/
theorem gauge_dedup (env : Env) (st0 st : ExpState) (name sn : Str) (lr : Nat)
    (val : ℚ)
    (hmn : metricNameAndLabels st0 name = ((sn, lr, false), st))
    (hg : assocGet st.gauges name = none)
    (hmem : sanitizeName sn ∈ st.metricsNameMap) :
    gaugeFromNameAndValue env st0 name val = (none, st) := by
  simp only [gaugeFromNameAndValue, hmn, hg, Bool.false_eq_true, if_false]
  rw [if_pos hmem]

/-- The gauge publisher preserves the at-most-once registration invariant. -/
theorem regInv_gauge (env : Env) (st : ExpState) (n : Str) (v : ℚ)
    (h : RegInv st) : RegInv (gaugeFromNameAndValue env st n v).2 := by
  rcases hmn : metricNameAndLabels st n with ⟨⟨sn, lr, sk⟩, st'⟩
  have hp := mnal_preserves st n
  rw [hmn] at hp
  have h' : RegInv st' := regInv_of_eq h hp.2.2.1 hp.2.1
  cases sk with
  | true =>
    rw [gauge_skip env st st' n sn lr v hmn]
    exact h'
  | false =>
    rcases hg : assocGet st'.gauges n with - | g
    · by_cases hmem : sanitizeName sn ∈ st'.metricsNameMap
      · rw [gauge_dedup env st st' n sn lr v hmn hg hmem]
        exact h'
      · rw [gauge_create env st st' n sn lr v hmn hg hmem]
        exact regInv_gaugeCreateResult env st' sn lr n v h' hmem
    · rw [gauge_hit env st st' n sn lr v g hmn hg]
      exact regInv_of_eq h' rfl rfl

/-- The histogram publisher's post-collector stage preserves the invariant
(it never registers a gauge vector; it may only insert a suffixed name). -/
theorem regInv_histWC (st0 : ExpState) (name : Str) (m : Metric) (bk : List ℚ)
    (cr : Nat) (h : RegInv st0) :
    RegInv (histogramFromNameAndMetric.histogramWithCollector st0 name m bk cr).2 := by
  rcases hsn : snapshotOf m with - | ⟨s, tn⟩
  · simp only [histogramFromNameAndMetric.histogramWithCollector, hsn]
    exact h
  · simp only [histogramFromNameAndMetric.histogramWithCollector, hsn]
    rcases hmn : metricNameAndLabels st0 name with ⟨⟨n2, lr, sk⟩, st'⟩
    have hp := mnal_preserves st0 name
    rw [hmn] at hp
    have h' : RegInv st' := regInv_of_eq h hp.2.2.1 hp.2.1
    simp only [hmn]
    cases sk with
    | true => simpa using h'
    | false =>
      simp only [Bool.false_eq_true, if_false]
      by_cases hmem : sanitizeName n2 ++ str "_" ++ tn ∈ st'.metricsNameMap
      · rw [if_pos hmem]
        exact h'
      · rw [if_neg hmem]
        exact ⟨h'.1, fun d hd => List.mem_cons_of_mem _ (h'.2 d hd)⟩

/-- The histogram publisher preserves the at-most-once registration
invariant (collector registrations carry no series name). -/
theorem regInv_hist (st : ExpState) (n : Str) (m : Metric) (bk : List ℚ)
    (h : RegInv st) : RegInv (histogramFromNameAndMetric st n m bk).2 := by
  rcases hc : assocGet st.customMetrics (createKey st.opt n) with - | r
  · simp only [histogramFromNameAndMetric, hc]
    exact regInv_histWC _ n m bk st.nextColl (regInv_of_eq h rfl rfl)
  · simp only [histogramFromNameAndMetric, hc]
    exact regInv_histWC st n m bk r h

theorem regInv_runOp (env : Env) (st : ExpState) (op : PubOp) (h : RegInv st) :
    RegInv (runOp env st op) := by
  cases op with
  | pubGauge n v => exact regInv_gauge env st n v h
  | pubHist n m bk => exact regInv_hist st n m bk h

theorem regInv_runOps (env : Env) (ops : List PubOp) :
    ∀ st : ExpState, RegInv st → RegInv (runOps env st ops) := by
  induction ops with
  | nil => intro st h; exact h
  | cons op rest ih =>
    intro st h
    exact ih _ (regInv_runOp env st op h)

theorem regInv_mkExporter (ns sub : Str) (bl : List (Str × Str))
    (hb tb : List ℚ) : RegInv (mkExporter ns sub bl hb tb) :=
  ⟨List.nodup_nil, fun d hd => absurd hd (List.not_mem_nil d)⟩

/-- The short name returned by the Label Resolver is always the parsed base
name. -/
theorem mnal_fst (st : ExpState) (n : Str) :
    (metricNameAndLabels st n).1.1 = (parseMetricName n).1 := by
  by_cases hsk : (parseMetricName n).2.1 = [] ∧ (parseMetricName n).2.2 = []
  · rw [mnal_skip st n hsk]
  · rcases hm : assocGet st.labelsMap n with - | r
    · rw [mnal_miss st n hsk hm]
    · rw [mnal_hit st n r hsk hm]

/-- In the creation branch, when the external registration fails the error is
returned as-is, yet the sanitized name REMAINS inserted in the dedup set
(insertion precedes the `Register` call), and the call was logged. -/
theorem gauge_create_failed (env : Env) (st0 st' : ExpState) (name : Str)
    (lr : Nat) (val : ℚ) (e : GoErr)
    (hmn : metricNameAndLabels st0 name = (((parseMetricName name).1, lr, false), st'))
    (hg : assocGet st'.gauges name = none)
    (hms : sanitizeName (parseMetricName name).1 ∉ st'.metricsNameMap)
    (henv : env (gaugeDescOf st0 name) = RegResult.failed e) :
    (gaugeFromNameAndValue env st0 name val).1 = some e ∧
    sanitizeName (parseMetricName name).1 ∈
      (gaugeFromNameAndValue env st0 name val).2.metricsNameMap ∧
    (gaugeFromNameAndValue env st0 name val).2.regLog =
      st'.regLog ++ [gaugeDescOf st0 name] := by
  have hdesc : gaugeDescOf st0 name = mkGaugeDesc st' (parseMetricName name).1 lr := by
    simp only [gaugeDescOf, hmn]
  rw [hdesc] at henv
  have hcr := gauge_create env st0 st' name (parseMetricName name).1 lr val hmn hg hms
  refine ⟨?_, ?_, ?_⟩
  · rw [hcr]
    simp only [gaugeCreateResult, henv]
  · rw [hcr]
    simp only [gaugeCreateResult, henv]
    exact List.mem_cons_self _ _
  · rw [hcr, hdesc]
    simp only [gaugeCreateResult, henv]

/-- The snapshot used by the C4 scenario. -/
def snapC4 : Snapshot := { values := [1], count := 1, sum := 1, percentile := fun _ => 1 }

/-- C4 scenario: state after the histogram publish of `a-for-topic-x`. -/
def stC4a : ExpState :=
  (histogramFromNameAndMetric st0F (str "a-for-topic-x")
    (Metric.histogram snapC4) [ratLit 1 2]).2

/-- C4 counterexample: with `a_histogram` already in the membership set, a
later histogram publish for the same sanitized series name (raw name
`a-for-topic-y`) returns success but does NOT skip creation and registration
entirely: a fresh placeholder collector is created, registered with the
exporter (`collRegLog` 1 → 2) and cached — an observable effect, contrary to
the claim. -/
theorem claim4_counterexample :
    str "a_histogram" ∈ stC4a.metricsNameMap ∧
    (histogramFromNameAndMetric stC4a (str "a-for-topic-y")
        (Metric.histogram snapC4) [ratLit 1 2]).1 = none ∧
    stC4a.collRegLog = 1 ∧
    (histogramFromNameAndMetric stC4a (str "a-for-topic-y")
        (Metric.histogram snapC4) [ratLit 1 2]).2.collRegLog = 2 ∧
    assocGet (histogramFromNameAndMetric stC4a (str "a-for-topic-y")
        (Metric.histogram snapC4) [ratLit 1 2]).2.customMetrics
      (createKey stC4a.opt (str "a-for-topic-y")) = some 2 := by
  refine ⟨by decide, rfl, rfl, rfl, rfl⟩

/-- C4 amended: (1) each sanitized gauge series name is registered with the
exporter at most once over any sequence of publish operations; (2) a later
GAUGE publish for a name whose sanitized short name is in the membership set
(and with no cached handle) skips vector creation and registration, returns
success, and leaves the handle cache, membership set, registration log,
collector cache and collector-registration count unchanged (histogram
publishes, by contrast, still pre-register a placeholder collector before the
early exit — see the counterexample); (3) on a membership miss the name is
inserted BEFORE the series is created and registered: even when registration
fails, the error is returned but the name remains in the membership set and
the registration call was made after the insertion. -/
theorem claim4_amended :
    (∀ (env : Env) (ns sub : Str) (bl : List (Str × Str)) (hb tb : List ℚ)
        (ops : List PubOp),
      ((runOps env (mkExporter ns sub bl hb tb) ops).regLog.map
        GaugeVecDesc.name).Nodup) ∧
    (∀ (env : Env) (st : ExpState) (name : Str) (v : ℚ),
      sanitizeName (parseMetricName name).1 ∈ st.metricsNameMap →
      assocGet st.gauges name = none →
      (gaugeFromNameAndValue env st name v).1 = none ∧
      (gaugeFromNameAndValue env st name v).2.gauges = st.gauges ∧
      (gaugeFromNameAndValue env st name v).2.metricsNameMap = st.metricsNameMap ∧
      (gaugeFromNameAndValue env st name v).2.regLog = st.regLog ∧
      (gaugeFromNameAndValue env st name v).2.customMetrics = st.customMetrics ∧
      (gaugeFromNameAndValue env st name v).2.collRegLog = st.collRegLog) ∧
    (∀ (env : Env) (st : ExpState) (name : Str) (v : ℚ) (e : GoErr),
      ¬((parseMetricName name).2.1 = [] ∧ (parseMetricName name).2.2 = []) →
      assocGet st.gauges name = none →
      sanitizeName (parseMetricName name).1 ∉ st.metricsNameMap →
      env (gaugeDescOf st name) = RegResult.failed e →
      (gaugeFromNameAndValue env st name v).1 = some e ∧
      sanitizeName (parseMetricName name).1 ∈
        (gaugeFromNameAndValue env st name v).2.metricsNameMap ∧
      (gaugeFromNameAndValue env st name v).2.regLog =
        st.regLog ++ [gaugeDescOf st name]) := by
  refine ⟨?_, ?_, ?_⟩
  · intro env ns sub bl hb tb ops
    exact (regInv_runOps env ops _ (regInv_mkExporter ns sub bl hb tb)).1
  · intro env st name v hmem hg
    rcases hmn : metricNameAndLabels st name with ⟨⟨sn, lr, sk⟩, st'⟩
    have hfst := mnal_fst st name
    rw [hmn] at hfst
    have hsn : sn = (parseMetricName name).1 := hfst
    have hp := mnal_preserves st name
    rw [hmn] at hp
    obtain ⟨hG, hMN, hRL, -, hCM, -, hCR, -⟩ := hp
    cases sk with
    | true =>
      rw [gauge_skip env st st' name sn lr v hmn]
      exact ⟨rfl, hG, hMN, hRL, hCM, hCR⟩
    | false =>
      have hg' : assocGet st'.gauges name = none := by rw [hG]; exact hg
      have hmem' : sanitizeName sn ∈ st'.metricsNameMap := by
        rw [hsn, hMN]; exact hmem
      rw [gauge_dedup env st st' name sn lr v hmn hg' hmem']
      exact ⟨rfl, hG, hMN, hRL, hCM, hCR⟩
  · intro env st name v e hd hg hms henv
    match hcache : assocGet st.labelsMap name with
    | some r =>
      exact gauge_create_failed env st st name r v e
        (mnal_hit st name r hd hcache) hg hms henv
    | none =>
      exact gauge_create_failed env st
        { st with
          heap := mnalHeap st name
          labelsMap := assocSet st.labelsMap name st.opt.labelsRef }
        name st.opt.labelsRef v e (mnal_miss st name hd hcache) hg hms henv

/-- Witness for C4's amended theorem: a two-publish operation sequence for
part (1); a gauge publish whose short name is already in the C4 scenario's
membership set for part (2); a failing registration against a fresh exporter
for part (3). -/
theorem claim4_amended_witness :
    ((runOps envOk (mkExporter (str "") (str "") [] [ratLit 1 2, ratLit 19 20] [])
        [PubOp.pubGauge (str "a-for-broker-1") 1,
         PubOp.pubGauge (str "b-for-topic-x") 2]).regLog.map
      GaugeVecDesc.name).Nodup ∧
    (sanitizeName (parseMetricName (str "a_histogram-for-topic-z")).1 ∈
        stC4a.metricsNameMap ∧
      assocGet stC4a.gauges (str "a_histogram-for-topic-z") = none ∧
      ((gaugeFromNameAndValue envOk stC4a (str "a_histogram-for-topic-z") 5).1 = none ∧
       (gaugeFromNameAndValue envOk stC4a (str "a_histogram-for-topic-z") 5).2.gauges
          = stC4a.gauges ∧
       (gaugeFromNameAndValue envOk stC4a (str "a_histogram-for-topic-z") 5).2.metricsNameMap
          = stC4a.metricsNameMap ∧
       (gaugeFromNameAndValue envOk stC4a (str "a_histogram-for-topic-z") 5).2.regLog
          = stC4a.regLog ∧
       (gaugeFromNameAndValue envOk stC4a (str "a_histogram-for-topic-z") 5).2.customMetrics
          = stC4a.customMetrics ∧
       (gaugeFromNameAndValue envOk stC4a (str "a_histogram-for-topic-z") 5).2.collRegLog
          = stC4a.collRegLog)) ∧
    (¬((parseMetricName (str "x-for-broker-1")).2.1 = [] ∧
        (parseMetricName (str "x-for-broker-1")).2.2 = []) ∧
      assocGet st0F.gauges (str "x-for-broker-1") = none ∧
      sanitizeName (parseMetricName (str "x-for-broker-1")).1 ∉ st0F.metricsNameMap ∧
      ((gaugeFromNameAndValue envFail st0F (str "x-for-broker-1") 5).1 =
          some (GoErr.envErr 7) ∧
       sanitizeName (parseMetricName (str "x-for-broker-1")).1 ∈
          (gaugeFromNameAndValue envFail st0F (str "x-for-broker-1") 5).2.metricsNameMap ∧
       (gaugeFromNameAndValue envFail st0F (str "x-for-broker-1") 5).2.regLog =
          st0F.regLog ++ [gaugeDescOf st0F (str "x-for-broker-1")])) :=
  ⟨claim4_amended.1 envOk (str "") (str "") [] [ratLit 1 2, ratLit 19 20] []
      [PubOp.pubGauge (str "a-for-broker-1") 1,
       PubOp.pubGauge (str "b-for-topic-x") 2],
   ⟨by decide, by decide,
    claim4_amended.2.1 envOk stC4a (str "a_histogram-for-topic-z") 5
      (by decide) (by decide)⟩,
   ⟨by decide, by decide, by decide,
    claim4_amended.2.2 envFail st0F (str "x-for-broker-1") 5 (GoErr.envErr 7)
      (by decide) (by decide) (by decide) rfl⟩⟩
